/-
Verification of the retrieval-and-analysis subsystem of the financial-chatbot
repository (src/fin_dashboard).  The Python source is shallowly embedded:

* Python floats are modelled as rationals.
* Year labels (carried in the source as strings of decimal digits produced by
  str(year), hence order-isomorphic to the numbers) are modelled as naturals.
* Python lists become Lean lists; dict fields that may be absent become Option.
* Code that can raise is modelled with Except; a caught exception becomes the
  value the handler returns, exactly as in the source.
* The natural-language text of a synthesized document is presentation; each
  document is modelled as a structured template carrying every value that the
  source interpolates into the f-string.
-/
import Mathlib

/-! ## Data model (spec section 3, shapes taken from datasources.py and llm.py) -/

/-- A per-metric time series: `{dates: [...], values: [...]}` as built in
`datasources.get_multi_year_financial_data` and consumed in `llm.py`. -/
structure Timeline where
  dates : List ℕ
  values : List ℚ
deriving DecidableEq

/-- The `financial_data` mapping; the source only ever stores the keys
`revenue` and `net_income`. An absent key is `none`. -/
structure FinancialData where
  revenue : Option Timeline
  net_income : Option Timeline
deriving DecidableEq

/-- The `ratios_timeline` mapping; keys `revenue_growth` and `profit_margin`. -/
structure RatiosTimeline where
  revenue_growth : Option Timeline
  profit_margin : Option Timeline
deriving DecidableEq

/-- The `multi_year_data` record returned by `get_multi_year_financial_data`. -/
structure MultiYearData where
  financial_data : FinancialData
  ratios_timeline : RatiosTimeline
deriving DecidableEq

/-- The current-period `metric` dict fields used by the synthesizer; a key the
dict lacks is `none` (the source reads them with `.get(key, 0)`). -/
structure CurrentMetrics where
  netProfitMarginAnnual : Option ℚ
  roeAnnual : Option ℚ
deriving DecidableEq

/-- The slice of a company snapshot consumed by the core (presentation-only
fields such as name and sector feed only prompt text and are omitted).
`metric = none` models an empty metrics dict (falsy in the source). -/
structure CompanyData where
  multi_year_data : MultiYearData
  metric : Option CurrentMetrics
deriving DecidableEq

/-! ## Financial Timeline Normalizer (datasources.py, get_multi_year_financial_data) -/

/-- One raw yearly report from the Finnhub income-statement payload.
`year = none` models the case where both the year and date fields are absent
(the source then sees the sentinel string and drops the row);
`totalRevenue`/`netIncome` are read with `.get(key, 0) or 0`, so `none` and a
stored 0 both yield 0. -/
structure RawYear where
  year : Option ℕ
  totalRevenue : Option ℚ
  netIncome : Option ℚ
deriving DecidableEq

/-- Embedding of the Finnhub branch of `get_multi_year_financial_data`
(datasources.py lines 149-165): take the first 6 rows, keep those with a year
label, collect dates/revenues/net incomes in arrival order, then store each
series reversed (the source assumes the provider sends newest first). -/
def finnhubNormalize (finData : List RawYear) : FinancialData :=
  let rows := (finData.take 6).filterMap fun y =>
    y.year.map fun d => (d, y.totalRevenue.getD 0, y.netIncome.getD 0)
  let dates := rows.map (·.1)
  if dates.isEmpty then ⟨none, none⟩
  else
    ⟨some ⟨dates.reverse, (rows.map (·.2.1)).reverse⟩,
     some ⟨dates.reverse, (rows.map (·.2.2)).reverse⟩⟩

/-- Embedding of the profit-margin part of `calculate_historical_ratios`
(datasources.py lines 229-255): intersect the date sets, walk the common dates
in ascending order, and for each date with nonzero revenue append the margin
together with its date. -/
def profitMarginTimeline (rev inc : Timeline) : Option Timeline :=
  let common := ((rev.dates.filter (· ∈ inc.dates)).dedup).insertionSort (· ≤ ·)
  let pairs := common.filterMap fun d =>
    let r := rev.values.getD (rev.dates.indexOf d) 0
    let n := inc.values.getD (inc.dates.indexOf d) 0
    if r ≠ 0 then some (d, n / r * 100) else none
  if pairs.isEmpty then none else some ⟨pairs.map (·.1), pairs.map (·.2)⟩

/-- Embedding of `calculate_historical_ratios` (datasources.py lines 206-260).
Revenue growth: over consecutive value pairs, keep the growth rate only when
the previous value is nonzero, but keep every date from position 1 on. -/
def calculateHistoricalRatios (fd : FinancialData) : RatiosTimeline :=
  let growth : Option Timeline :=
    match fd.revenue with
    | none => none
    | some tl =>
      if tl.values.length > 1 then
        let rates := (tl.values.zip tl.values.tail).filterMap fun pc =>
          if pc.1 ≠ 0 then some ((pc.2 - pc.1) / pc.1 * 100) else none
        if rates.isEmpty then none else some ⟨tl.dates.drop 1, rates⟩
      else none
  let margin : Option Timeline :=
    match fd.revenue, fd.net_income with
    | some rev, some inc => profitMarginTimeline rev inc
    | _, _ => none
  ⟨growth, margin⟩

/-! ## Document Synthesizer (llm.py, prepare_financial_documents)

Each document is a structured template carrying exactly the values the source
interpolates into the corresponding f-string; the surrounding English is
presentation. -/

/-- Synthesized document templates, one constructor per generation rule. -/
inductive DocText where
  | revenueDoc (ticker : String) (date : ℕ) (value : ℚ) (growthPhrase : Option ℚ)
  | netIncomeDoc (ticker : String) (date : ℕ) (value : ℚ) (changePhrase : Option ℚ)
  | growthDoc (ticker : String) (date : ℕ) (desc : String) (rate : ℚ)
  | marginDoc (ticker : String) (date : ℕ) (desc : String) (margin : ℚ)
  | trendDoc (ticker : String) (d0 d1 d2 : ℕ) (trend : String) (g1 g2 : ℚ)
  | predictiveDoc (ticker : String) (dStart dEnd : ℕ) (label : String)
      (avgGrowth nextYearGrowth : ℚ)
  | comparisonDoc (ticker : String) (currentMargin avgHistMargin : ℚ)
      (comparison : String)
  | stabilityDoc (ticker : String) (desc : String) (factor : ℚ)
deriving DecidableEq

instance : Inhabited DocText := ⟨DocText.stabilityDoc "" "" 0⟩

/-- Metadata records, mirroring the dict each rule appends. -/
inductive Meta where
  | revenueMeta (year : ℕ) (value : ℚ) (ticker : String)
  | netIncomeMeta (year : ℕ) (value : ℚ) (ticker : String)
  | growthMeta (year : ℕ) (value : ℚ) (ticker : String)
  | marginMeta (year : ℕ) (value : ℚ) (ticker : String)
  | trendMeta (periodStart periodEnd : ℕ) (trend : String) (ticker : String)
  | predictiveMeta (label : String) (projectedGrowth : ℚ) (confidence : String)
      (ticker : String)
  | comparisonMeta (metric : String) (ticker : String)
  | stabilityMeta (metric : String) (ticker : String)
deriving DecidableEq

instance : Inhabited Meta := ⟨Meta.stabilityMeta "" ""⟩

/-- Python list slice `l[-n:]`, for n > 0. -/
def lastN (n : ℕ) (l : List α) : List α := l.drop (l.length - n)

/-- Python `sum(l) / len(l)` and `np.mean(l)`. -/
def listMean (l : List ℚ) : ℚ := l.sum / l.length

/-- Python `max(l)` for nonempty `l`. -/
def listMax (l : List ℚ) : ℚ := l.foldl max (l.headD 0)

/-- Python `min(l)` for nonempty `l`. -/
def listMin (l : List ℚ) : ℚ := l.foldl min (l.headD 0)

/-- Rule 1 (llm.py lines 276-292): one revenue document per (date, value) pair,
with a year-over-year phrase from the second pair on.  The division by the
previous value is unguarded in the source, so a previous value of zero raises
ZeroDivisionError. -/
def revenueRule (ticker : String) : Option ℚ → List (ℕ × ℚ) →
    Except String (List DocText × List Meta)
  | _, [] => .ok ([], [])
  | prev, (d, v) :: rest => do
    let phrase : Option ℚ ←
      match prev with
      | none => pure none
      | some p =>
        if p = 0 then Except.error "ZeroDivisionError"
        else pure (some ((v - p) / p * 100))
    let tl ← revenueRule ticker (some v) rest
    pure (DocText.revenueDoc ticker d v phrase :: tl.1,
          Meta.revenueMeta d v ticker :: tl.2)

/-- Rule 2 (llm.py lines 295-312): net-income documents; unlike rule 1 the
change phrase is guarded by a nonzero previous value, so no division error. -/
def netIncomeRule (ticker : String) : Option ℚ → List (ℕ × ℚ) →
    List DocText × List Meta
  | _, [] => ([], [])
  | prev, (d, v) :: rest =>
    let phrase : Option ℚ :=
      match prev with
      | none => none
      | some p => if p ≠ 0 then some ((v - p) / p * 100) else none
    let tl := netIncomeRule ticker (some v) rest
    (DocText.netIncomeDoc ticker d v phrase :: tl.1,
     Meta.netIncomeMeta d v ticker :: tl.2)

/-- Growth magnitude classification of rule 3. -/
def growthDescOf (g : ℚ) : String :=
  if g > 10 then "strong" else if g > 5 then "moderate"
  else if g > 0 then "modest" else "negative"

/-- Rule 3 (llm.py lines 315-334): one document per revenue-growth entry. -/
def growthRule (ticker : String) (pairs : List (ℕ × ℚ)) :
    List DocText × List Meta :=
  (pairs.map fun p => DocText.growthDoc ticker p.1 (growthDescOf p.2) p.2,
   pairs.map fun p => Meta.growthMeta p.1 p.2 ticker)

/-- Margin classification of rule 4. -/
def marginDescOf (m : ℚ) : String :=
  if m > 20 then "excellent" else if m > 15 then "strong"
  else if m > 10 then "healthy" else "concerning"

/-- Rule 4 (llm.py lines 337-356): one document per profit-margin entry. -/
def marginRule (ticker : String) (pairs : List (ℕ × ℚ)) :
    List DocText × List Meta :=
  (pairs.map fun p => DocText.marginDoc ticker p.1 (marginDescOf p.2) p.2,
   pairs.map fun p => Meta.marginMeta p.1 p.2 ticker)

/-- Rule 5 (llm.py lines 359-383): the 3-period trend-acceleration document.
Both year-over-year divisions are unguarded in the source.  Date labels are
read with a default; the claims under verification only concern timelines
whose dates and values lists are aligned. -/
def trendRule (ticker : String) (fd : FinancialData) :
    Except String (List DocText × List Meta) :=
  match fd.revenue with
  | none => .ok ([], [])
  | some tl =>
    if 3 ≤ tl.values.length then
      let vs := lastN 3 tl.values
      let ds := lastN 3 tl.dates
      let v0 := vs.getD 0 0
      let v1 := vs.getD 1 0
      let v2 := vs.getD 2 0
      if v0 = 0 then Except.error "ZeroDivisionError"
      else if v1 = 0 then Except.error "ZeroDivisionError"
      else
        let g1 := (v1 - v0) / v0 * 100
        let g2 := (v2 - v1) / v1 * 100
        let trend := if g2 > g1 then "accelerating"
                     else if g2 < g1 then "decelerating" else "stable"
        .ok ([DocText.trendDoc ticker (ds.getD 0 0) (ds.getD 1 0) (ds.getD 2 0)
                trend g1 g2],
             [Meta.trendMeta (ds.getD 0 0) (ds.getD 2 0) trend ticker])
    else .ok ([], [])

/-- Rule 6 (llm.py lines 386-427): the predictive-projection document.  In this
embedding the growth values are rationals, so the None filter of the source is
vacuous and the filtered list always has the three sliced elements; the
length-under-2 fallback branch of the source is therefore unreachable here. -/
def predictiveRule (ticker : String) (rt : RatiosTimeline) :
    List DocText × List Meta :=
  match rt.revenue_growth with
  | none => ([], [])
  | some tl =>
    if 3 ≤ tl.values.length then
      let gvs := lastN 3 tl.values
      let gds := lastN 3 tl.dates
      let valid := gvs.map fun x => |x|
      let avg := listMean valid
      let recent := valid.getD (valid.length - 1) 0
      let earlier := valid.getD 0 0
      let pr : String × ℚ :=
        if recent > earlier * (1.1 : ℚ) then
          ("improving", min (recent * (1.05 : ℚ)) 15)
        else if recent < earlier * (0.9 : ℚ) then
          ("declining", max (recent * (0.95 : ℚ)) 1)
        else ("stable", avg)
      ([DocText.predictiveDoc ticker (gds.getD 0 0) (gds.getD 2 0) pr.1 avg pr.2],
       [Meta.predictiveMeta pr.1 pr.2 "medium" ticker])
    else ([], [])

/-- Rule 7 (llm.py lines 432-445): current-vs-historical margin comparison.
The source also reads the annual return-on-equity metric but never uses it. -/
def comparisonRule (ticker : String) (cd : CompanyData) :
    List DocText × List Meta :=
  match cd.metric with
  | none => ([], [])
  | some m =>
    let fd := cd.multi_year_data.financial_data
    if fd.revenue.isSome || fd.net_income.isSome then
      match cd.multi_year_data.ratios_timeline.profit_margin with
      | none => ([], [])
      | some mtl =>
        if mtl.values.isEmpty then ([], [])
        else
          let currentMargin := m.netProfitMarginAnnual.getD 0
          let avgHist := mtl.values.sum / mtl.values.length
          let comparison := if currentMargin > avgHist then "improved"
                            else "declined"
          ([DocText.comparisonDoc ticker currentMargin avgHist comparison],
           [Meta.comparisonMeta "profit_margin" ticker])
    else ([], [])

/-- Rule 8 (llm.py lines 448-461): the revenue-stability document. -/
def stabilityRule (ticker : String) (fd : FinancialData) :
    List DocText × List Meta :=
  match fd.revenue with
  | none => ([], [])
  | some tl =>
    if 2 ≤ tl.values.length then
      let factor := if listMin tl.values > 0
                    then listMax tl.values / listMin tl.values else 1
      let desc := if factor < (1.5 : ℚ) then "highly stable"
                  else if factor < 2 then "moderately stable" else "volatile"
      ([DocText.stabilityDoc ticker desc factor],
       [Meta.stabilityMeta "revenue" ticker])
    else ([], [])

/-- Embedding of `prepare_financial_documents` (llm.py lines 266-463): the
eight rules run in source order, each appending its documents and its metadata
records; an uncaught ZeroDivisionError from rule 1 or rule 5 aborts the whole
function, as in the source. -/
def prepareFinancialDocuments (cd : CompanyData) (ticker : String) :
    Except String (List DocText × List Meta) := do
  let fd := cd.multi_year_data.financial_data
  let rt := cd.multi_year_data.ratios_timeline
  let r1 ← match fd.revenue with
    | some tl => revenueRule ticker none (tl.dates.zip tl.values)
    | none => pure ([], [])
  let r2 := match fd.net_income with
    | some tl => netIncomeRule ticker none (tl.dates.zip tl.values)
    | none => ([], [])
  let r3 := match rt.revenue_growth with
    | some tl => growthRule ticker (tl.dates.zip tl.values)
    | none => ([], [])
  let r4 := match rt.profit_margin with
    | some tl => marginRule ticker (tl.dates.zip tl.values)
    | none => ([], [])
  let r5 ← trendRule ticker fd
  let r6 := predictiveRule ticker rt
  let r7 := comparisonRule ticker cd
  let r8 := stabilityRule ticker fd
  pure (r1.1 ++ r2.1 ++ r3.1 ++ r4.1 ++ r5.1 ++ r6.1 ++ r7.1 ++ r8.1,
        r1.2 ++ r2.2 ++ r3.2 ++ r4.2 ++ r5.2 ++ r6.2 ++ r7.2 ++ r8.2)

/-! ## Sparse Retrieval Index (llm.py, query_simple_rag)

The TF-IDF vectorization and the cosine-similarity computation are opaque
numeric collaborators; the ranking and threshold logic of `query_simple_rag`
operates only on the resulting per-document similarity array, which this
embedding takes as input.  A numpy ascending argsort is modelled as the unique
permutation of the index range sorted by value, ties in index order (numpy
observably keeps index order for the small arrays this corpus produces, and
any stable sort agrees with this model). -/

/-- The ascending comparison used to model `similarities.argsort()`: order
index `i` before index `j` when its similarity is smaller, breaking equal
similarities by index. -/
def ascRel (sims : List ℚ) (i j : ℕ) : Prop :=
  sims.getD i 0 < sims.getD j 0 ∨ (sims.getD i 0 = sims.getD j 0 ∧ i ≤ j)

instance (sims : List ℚ) : DecidableRel (ascRel sims) := fun i j =>
  inferInstanceAs (Decidable (sims.getD i 0 < sims.getD j 0 ∨
    (sims.getD i 0 = sims.getD j 0 ∧ i ≤ j)))

/-- Model of `similarities.argsort()`. -/
def argsortSims (sims : List ℚ) : List ℕ :=
  (List.range sims.length).insertionSort (ascRel sims)

/-- Model of `similarities.argsort()[-top_k:][::-1]` (llm.py line 507).
Python slicing with `-0` degenerates to the whole list. -/
def topIndices (sims : List ℚ) (k : ℕ) : List ℕ :=
  (if k = 0 then argsortSims sims
   else (argsortSims sims).drop ((argsortSims sims).length - k)).reverse

/-- The three parallel arrays returned by `query_simple_rag`. -/
structure QueryResult where
  documents : List DocText
  metadatas : List Meta
  scores : List ℚ
deriving DecidableEq

/-- Embedding of `query_simple_rag` (llm.py lines 491-522) given the cosine
similarities of the query against each document.  The source filters the
ranked index list three times: with floor 0.05 for the documents but with
floor 0.1 for the metadatas and the scores. -/
def querySimpleRag (sims : List ℚ) (documents : List DocText)
    (metadata : List Meta) (top_k : ℕ) : QueryResult :=
  if documents.isEmpty then ⟨[], [], []⟩
  else
    let ti := topIndices sims top_k
    ⟨(ti.filter fun i => sims.getD i 0 > (0.05 : ℚ)).map
        fun i => documents.getD i default,
     (ti.filter fun i => sims.getD i 0 > (0.1 : ℚ)).map
        fun i => metadata.getD i default,
     (ti.filter fun i => sims.getD i 0 > (0.1 : ℚ)).map
        fun i => sims.getD i 0⟩

/-! ## Predictive Insight Estimator (llm.py, get_predictive_insights)

The estimator reads the ratios timeline from the snapshot dict, where a value
entry may be null: the revenue branch filters nulls explicitly, while the
margin branch feeds the raw list to the numpy standard deviation, which raises
on a null; the surrounding handler then returns a single error record.  The
numpy population standard deviation is an irrational square root, so the
embedding carries the variance and classifies against the squared cutoffs
(4 and 25 for the source cutoffs 2 and 5), an order-preserving change. -/

/-- A time series as read by the estimator, whose value entries may be null. -/
structure OptTimeline where
  dates : List ℕ
  values : List (Option ℚ)
deriving DecidableEq

/-- The ratios timeline as read by the estimator. -/
structure OptRatiosTimeline where
  revenue_growth : Option OptTimeline
  profit_margin : Option OptTimeline
deriving DecidableEq

/-- The records produced by `get_predictive_insights`: the two insight shapes,
plus the error record its exception handler returns. -/
inductive Insight where
  | revenuePrediction (predicted_value : ℚ) (confidence : String)
      (yearsOfData : ℕ)
  | marginStability (stability : String) (average_margin : ℚ)
      (marginVariance : ℚ)
  | errorRecord (msg : String)
deriving DecidableEq

/-- Whether a record is the error record of the exception handler. -/
def Insight.isErrorRecord : Insight → Bool
  | .errorRecord _ => true
  | _ => false

/-- Population variance, `np.std(l) ** 2`. -/
def listVariance (l : List ℚ) : ℚ :=
  listMean (l.map fun x => (x - listMean l) ^ 2)

/-- Embedding of `get_predictive_insights` (llm.py lines 598-667).  A null
margin value reaching `np.std` raises; the handler of the source then discards
any insight collected so far and returns the single-element error list. -/
def getPredictiveInsights (rt : OptRatiosTimeline) : List Insight :=
  let revenueInsights : List Insight :=
    match rt.revenue_growth with
    | none => []
    | some tl =>
      if 3 ≤ tl.values.length then
        let recent := ((lastN 3 tl.values).filterMap id).map fun x => |x|
        let res : ℚ × String :=
          if ¬recent.isEmpty then
            if 2 ≤ recent.length then
              let latest := recent.getD (recent.length - 1) 0
              let previous := recent.getD (recent.length - 2) 0
              if latest > previous then (min (latest * (1.02 : ℚ)) 12, "medium")
              else (max (latest * (0.98 : ℚ)) 2, "medium")
            else (listMean recent, "low")
          else (5, "low")
        [.revenuePrediction res.1 res.2 recent.length]
      else []
  match rt.profit_margin with
  | none => revenueInsights
  | some tl =>
    if 3 ≤ tl.values.length then
      if tl.values.any (·.isNone) then
        [.errorRecord "unsupported operand type for null margin value"]
      else
        let margins := tl.values.filterMap id
        let varm := listVariance margins
        let desc := if varm < 4 then "highly stable"
                    else if varm < 25 then "moderately stable" else "volatile"
        revenueInsights ++ [.marginStability desc (listMean margins) varm]
    else revenueInsights

/-! ## Context Assembler and Analysis Orchestrator (llm.py, get_enhanced_ai_analysis)

The generative service and the TF-IDF vectorization are opaque collaborators,
modelled by an environment: an outcome for each generation call, a possible
failure of model construction and of vectorizer fitting, and the similarity
scores the fitted vectorizer yields for a document list against a query.  The
embedding additionally returns the list of collaborator events that occurred,
so that non-invocation of the retrieval index is a provable statement.  Every
Python exception is a value here, so the embedding returning an
`AnalysisResult` for every input is the no-propagation boundary itself. -/

/-- Outcome of one `model.generate_content` call: a truthy response text, a
falsy or textless response, or a raised exception. -/
inductive GenOutcome where
  | ok (text : String)
  | empty
  | raises (msg : String)
deriving DecidableEq

/-- Collaborator events: building the RAG store, querying it, and calling the
generative model (flagged by whether the prompt was the RAG-enhanced one). -/
inductive Ev where
  | buildStore
  | ragQuery
  | genCall (onRagPrompt : Bool)
deriving DecidableEq

/-- The result dict of `get_enhanced_ai_analysis`. -/
structure AnalysisResult where
  analysis : String
  method : String
  context_sources : ℕ
deriving DecidableEq

/-- The opaque collaborators of one analysis request. -/
structure Env where
  initModelFails : Option String
  vectorizeFails : Option String
  genSimple : GenOutcome
  genRag : GenOutcome
  simsOf : List DocText → String → List ℚ

/-- The slice of `context_data` the orchestrator control flow reads; the
remaining keys (ratios, trends, filings) feed only prompt text. -/
structure ContextData where
  force_standard : Bool
  company_info : CompanyData
  ticker : String

/-- Embedding of `get_simple_ai_analysis` (llm.py lines 21-90): model
construction failure or generation failure is caught inside and becomes an
error string; a falsy response becomes the retry message. -/
def getSimpleAiAnalysis (env : Env) : String × List Ev :=
  match env.initModelFails with
  | some m =>
    ("Error generating analysis: " ++ m ++
       ". Please check your API key and try again.", [])
  | none =>
    match env.genSimple with
    | .ok t => (t, [.genCall false])
    | .empty => ("Unable to generate analysis. Please try again.",
                 [.genCall false])
    | .raises m =>
      ("Error generating analysis: " ++ m ++
         ". Please check your API key and try again.", [.genCall false])

/-- The four-tuple returned by `create_simple_rag_store`. -/
structure RagStore where
  vectorizerPresent : Bool
  documents : List DocText
  metadata : List Meta
  error : Option String
deriving DecidableEq

/-- Embedding of `create_simple_rag_store` (llm.py lines 468-489): a raise
inside `prepare_financial_documents` is caught by the outer handler; an empty
corpus and a vectorization failure each produce their error string. -/
def createSimpleRagStore (env : Env) (ci : CompanyData) (ticker : String) :
    RagStore :=
  match prepareFinancialDocuments ci ticker with
  | .error e => ⟨false, [], [], some e⟩
  | .ok (docs, metas) =>
    if docs.isEmpty then ⟨false, [], [], some "No financial data available"⟩
    else
      match env.vectorizeFails with
      | some e => ⟨false, [], [], some ("Vectorization failed: " ++ e)⟩
      | none => ⟨true, docs, metas, none⟩

/-- Embedding of `get_enhanced_ai_analysis` (llm.py lines 93-198).  The
force-standard check precedes the try block; inside it, model construction
runs first, then the historical-data check, the store build, the retrieval
query with `top_k = 3`, and the RAG generation call; every failed or empty
stage falls through to the standard path, except a raise from model
construction or from the RAG generation call, which the boundary handler
converts into the Error-method result. -/
def getEnhancedAiAnalysis (env : Env) (ctx : ContextData) (query : String) :
    AnalysisResult × List Ev :=
  if ctx.force_standard then
    let s := getSimpleAiAnalysis env
    (⟨s.1, "Standard AI", 0⟩, s.2)
  else
    match env.initModelFails with
    | some m =>
      (⟨"Enhanced analysis error: " ++ m ++ ". Please try again.",
        "Error", 0⟩, [])
    | none =>
      let fd := ctx.company_info.multi_year_data.financial_data
      let hasHistorical := fd.revenue.isSome || fd.net_income.isSome
      if hasHistorical then
        let store := createSimpleRagStore env ctx.company_info ctx.ticker
        if store.error.isNone && !store.documents.isEmpty then
          let rag := querySimpleRag (env.simsOf store.documents query)
            store.documents store.metadata 3
          if !rag.documents.isEmpty then
            match env.genRag with
            | .ok t =>
              (⟨t, "RAG-Enhanced", rag.documents.length⟩,
               [.buildStore, .ragQuery, .genCall true])
            | .empty =>
              let s := getSimpleAiAnalysis env
              (⟨s.1, "Standard AI", 0⟩,
               [.buildStore, .ragQuery, .genCall true] ++ s.2)
            | .raises m =>
              (⟨"Enhanced analysis error: " ++ m ++ ". Please try again.",
                "Error", 0⟩, [.buildStore, .ragQuery, .genCall true])
          else
            let s := getSimpleAiAnalysis env
            (⟨s.1, "Standard AI", 0⟩, [.buildStore, .ragQuery] ++ s.2)
        else
          let s := getSimpleAiAnalysis env
          (⟨s.1, "Standard AI", 0⟩, [.buildStore] ++ s.2)
      else
        let s := getSimpleAiAnalysis env
        (⟨s.1, "Standard AI", 0⟩, s.2)

/-- Whether a metadata record was produced by the same generation rule as a
document, carrying the same year and value where the rule stores them: the
correspondence that positional metadata lookup during retrieval relies on. -/
def ruleMatch : DocText → Meta → Bool
  | .revenueDoc _ d v _, .revenueMeta y w _ => d == y && v == w
  | .netIncomeDoc _ d v _, .netIncomeMeta y w _ => d == y && v == w
  | .growthDoc _ d _ r, .growthMeta y w _ => d == y && r == w
  | .marginDoc _ d _ m, .marginMeta y w _ => d == y && m == w
  | .trendDoc _ d0 _ d2 t _ _, .trendMeta ps pe tr _ =>
      d0 == ps && d2 == pe && t == tr
  | .predictiveDoc _ _ _ lab _ ng, .predictiveMeta lab2 pg conf _ =>
      lab == lab2 && ng == pg && conf == "medium"
  | .comparisonDoc _ _ _ _, .comparisonMeta metric _ =>
      metric == "profit_margin"
  | .stabilityDoc _ _ _, .stabilityMeta metric _ => metric == "revenue"
  | _, _ => false

/-! ## Ranking order of the modelled argsort -/

/-- The descending ranking realized by `topIndices`: strictly higher
similarity first, equal similarities broken by the later corpus index
first. -/
def descRel (sims : List ℚ) (i j : ℕ) : Prop :=
  sims.getD j 0 < sims.getD i 0 ∨ (sims.getD j 0 = sims.getD i 0 ∧ j < i)

instance (sims : List ℚ) : IsTotal ℕ (ascRel sims) where
  total i j := by
    rcases lt_trichotomy (sims.getD i 0) (sims.getD j 0) with h | h | h
    · exact Or.inl (Or.inl h)
    · rcases Nat.le_total i j with hij | hij
      · exact Or.inl (Or.inr ⟨h, hij⟩)
      · exact Or.inr (Or.inr ⟨h.symm, hij⟩)
    · exact Or.inr (Or.inl h)

instance (sims : List ℚ) : IsTrans ℕ (ascRel sims) where
  trans i j k hij hjk := by
    rcases hij with h1 | ⟨e1, l1⟩
    · rcases hjk with h2 | ⟨e2, l2⟩
      · exact Or.inl (h1.trans h2)
      · exact Or.inl (e2 ▸ h1)
    · rcases hjk with h2 | ⟨e2, l2⟩
      · exact Or.inl (e1.symm ▸ h2)
      · exact Or.inr ⟨e1.trans e2, l1.trans l2⟩

/-! ## Claim theorems -/

/-- Claim C1.  The claim states that `query()` applies one consistent
similarity threshold to documents, metadatas and scores, so that the three
returned lists always have equal length.  The source instead filters the
ranked list with floor 0.05 for the documents but floor 0.1 for the metadatas
and the scores (llm.py lines 511-513): on a one-document corpus whose
similarity against the query is 0.07, the returned documents list is nonempty
while the metadatas and scores lists are empty.  The spec itself flags the
asymmetric thresholds as a required correction, so this is a bug in the code
rather than in the claim. -/
theorem c1_query_threshold_inconsistent :
    (querySimpleRag [(7/100 : ℚ)] [DocText.stabilityDoc "AAPL" "volatile" 3]
        [Meta.stabilityMeta "revenue" "AAPL"] 3).documents.length = 1 ∧
    (querySimpleRag [(7/100 : ℚ)] [DocText.stabilityDoc "AAPL" "volatile" 3]
        [Meta.stabilityMeta "revenue" "AAPL"] 3).metadatas.length = 0 ∧
    (querySimpleRag [(7/100 : ℚ)] [DocText.stabilityDoc "AAPL" "volatile" 3]
        [Meta.stabilityMeta "revenue" "AAPL"] 3).scores.length = 0 := by
  refine ⟨?_, ?_, ?_⟩ <;>
    · simp [querySimpleRag, topIndices, argsortSims, ascRel]
      norm_num

/-- Claim C2.  The claim states that every timeline produced by the normalizer
has strictly ascending dates regardless of the order in which the raw records
arrive.  The Finnhub branch of `get_multi_year_financial_data` only reverses
the arrival order (assuming the provider sends newest first) and never sorts:
when the two yearly records arrive oldest first, the produced revenue dates
are [2021, 2020], which is not ascending.  The yFinance fallback branch
(datasources.py lines 175-187) does not even reverse.  The spec flags the
missing sort as a required correction, so this is a bug in the code. -/
theorem c2_normalizer_dates_not_sorted :
    (finnhubNormalize [⟨some 2020, some 100, some 10⟩,
        ⟨some 2021, some 110, some 11⟩]).revenue =
      some ⟨[2021, 2020], [110, 100]⟩ ∧
    ¬ List.Chain' (· < ·) ([2021, 2020] : List ℕ) := by
  constructor
  · simp [finnhubNormalize]
  · simp [List.chain'_cons, List.chain'_singleton]

/-- Claim C7.  The claim states that the Document Synthesizer never raises on
structurally well-formed input, in particular that a previous-period revenue
value of 0 (allowed by the missing-equals-zero policy) causes no division
error.  The per-year revenue rule divides by the previous value with no zero
guard (llm.py line 283, unlike the guarded net-income rule two blocks below),
so a revenue timeline [0, 100] raises ZeroDivisionError. -/
theorem c7_synthesizer_div_by_zero :
    prepareFinancialDocuments
      ⟨⟨⟨some ⟨[2020, 2021], [0, 100]⟩, none⟩, ⟨none, none⟩⟩, none⟩ "TST" =
      Except.error "ZeroDivisionError" := rfl

/-- Claim C8.  The claim states that each ratio timeline keeps dates and
values aligned, skipping a period with zero previous revenue from both lists.
`calculate_historical_ratios` filters the zero-previous period out of the
values but keeps every date from position 1 on (datasources.py lines 216-226):
revenue [0, 100, 200] yields two dates with a single value. -/
theorem c8_ratio_dates_values_misaligned :
    (calculateHistoricalRatios ⟨some ⟨[2020, 2021, 2022], [0, 100, 200]⟩,
        none⟩).revenue_growth = some ⟨[2021, 2022], [100]⟩ ∧
    ([2021, 2022] : List ℕ).length ≠ ([(100 : ℚ)] : List ℚ).length := by
  constructor
  · simp [calculateHistoricalRatios]
    norm_num
  · decide

/-- The modelled argsort is index-for-index a permutation of the range. -/
theorem length_argsortSims (sims : List ℚ) :
    (argsortSims sims).length = sims.length := by
  unfold argsortSims
  rw [(List.perm_insertionSort _ _).length_eq, List.length_range]

/-- The modelled argsort has no duplicate index. -/
theorem nodup_argsortSims (sims : List ℚ) : (argsortSims sims).Nodup :=
  (List.perm_insertionSort _ _).nodup_iff.mpr (List.nodup_range _)

/-- Membership in the modelled argsort is membership in the index range. -/
theorem mem_argsortSims {sims : List ℚ} {i : ℕ} :
    i ∈ argsortSims sims ↔ i < sims.length := by
  unfold argsortSims
  rw [(List.perm_insertionSort _ _).mem_iff, List.mem_range]

/-- The modelled argsort is ascending under `ascRel`. -/
theorem sorted_argsortSims (sims : List ℚ) :
    List.Pairwise (ascRel sims) (argsortSims sims) :=
  List.sorted_insertionSort _ _

/-- Ascending order in the flipped direction plus distinctness gives the
strict descending ranking. -/
theorem descRel_of_ascRel_ne {sims : List ℚ} {i j : ℕ}
    (h : ascRel sims j i) (hne : j ≠ i) : descRel sims i j := by
  rcases h with h | ⟨e, hle⟩
  · exact Or.inl h
  · exact Or.inr ⟨e, lt_of_le_of_ne hle hne⟩

/-- Claim C5, counterexample to the stated tie-breaking direction.  On a
two-document corpus where both documents score 0.5 against the query, the
ranked index list of the source, `argsort()[-top_k:][::-1]`, puts the
later-inserted document first, so the returned documents list starts with the
second document, not the first as the claim states. -/
theorem c5_tie_order_counterexample :
    (querySimpleRag [(1/2 : ℚ), 1/2]
        [DocText.growthDoc "AAPL" 2021 "strong" 11,
         DocText.growthDoc "AAPL" 2022 "modest" 3]
        [Meta.growthMeta 2021 11 "AAPL", Meta.growthMeta 2022 3 "AAPL"]
        3).documents =
      [DocText.growthDoc "AAPL" 2022 "modest" 3,
       DocText.growthDoc "AAPL" 2021 "strong" 11] ∧
    DocText.growthDoc "AAPL" 2022 "modest" 3 ≠
      DocText.growthDoc "AAPL" 2021 "strong" 11 := by
  constructor
  · simp [querySimpleRag, topIndices, argsortSims, ascRel]
    norm_num
  · simp

/-- Claim C5 as amended: for every built index, query and `top_k` of at least
one, the documents returned by `query()` are, of the ranked candidate list,
those above the 0.05 floor; the ranked candidate list has `min top_k n`
entries, is in strictly descending score order with ties between
equal-scoring documents broken by reverse corpus insertion order (the
later-inserted document ranked first), and every unranked index scores no
higher than every ranked one under that same ordering. -/
theorem c5_query_ranking_amended (sims : List ℚ) (docs : List DocText)
    (metas : List Meta) (k : ℕ) (hk : 1 ≤ k)
    (hlen : sims.length = docs.length) :
    (querySimpleRag sims docs metas k).documents =
      ((topIndices sims k).filter fun i => sims.getD i 0 > (0.05 : ℚ)).map
        (fun i => docs.getD i default) ∧
    (topIndices sims k).length = min k sims.length ∧
    List.Pairwise (descRel sims) (topIndices sims k) ∧
    ∀ j < sims.length, j ∉ topIndices sims k →
      ∀ i ∈ topIndices sims k, descRel sims i j := by
  have hk0 : k ≠ 0 := by omega
  have hlenA : (argsortSims sims).length = sims.length := length_argsortSims sims
  have hnd : (argsortSims sims).Nodup := nodup_argsortSims sims
  have hsort : List.Pairwise (ascRel sims) (argsortSims sims) :=
    sorted_argsortSims sims
  have hti : topIndices sims k =
      ((argsortSims sims).drop ((argsortSims sims).length - k)).reverse := by
    unfold topIndices
    rw [if_neg hk0]
  refine ⟨?_, ?_, ?_, ?_⟩
  · match docs with
    | [] =>
      have hs : sims = [] := List.eq_nil_of_length_eq_zero (by simp [hlen])
      subst hs
      simp [querySimpleRag, topIndices, argsortSims]
    | d :: ds => simp [querySimpleRag]
  · rw [hti, List.length_reverse, List.length_drop, hlenA]
    omega
  · rw [hti]
    have h2 : List.Pairwise (ascRel sims)
        ((argsortSims sims).drop ((argsortSims sims).length - k)) :=
      List.Pairwise.sublist (List.drop_sublist _ _) hsort
    have h3 : List.Pairwise (fun i j => ascRel sims j i)
        (((argsortSims sims).drop ((argsortSims sims).length - k)).reverse) :=
      List.pairwise_reverse.mpr h2
    have h4 : (((argsortSims sims).drop
        ((argsortSims sims).length - k)).reverse).Nodup :=
      List.nodup_reverse.mpr (List.Nodup.sublist (List.drop_sublist _ _) hnd)
    exact (h3.and h4).imp fun h => descRel_of_ascRel_ne h.1 (Ne.symm h.2)
  · intro j hj hjnot i hi
    rw [hti, List.mem_reverse] at hi hjnot
    have hja : j ∈ argsortSims sims := mem_argsortSims.mpr (hlenA ▸ hj)
    have hsplit := List.take_append_drop ((argsortSims sims).length - k)
      (argsortSims sims)
    have hjtake : j ∈ (argsortSims sims).take ((argsortSims sims).length - k) := by
      rcases List.mem_append.mp (hsplit.symm ▸ hja) with h | h
      · exact h
      · exact absurd h hjnot
    have hpw := List.pairwise_append.mp (hsplit.symm ▸ hsort)
    have hasc : ascRel sims j i := hpw.2.2 j hjtake i hi
    obtain ⟨-, -, hdisj⟩ := List.nodup_append.mp (hsplit.symm ▸ hnd)
    have hne : j ≠ i := fun he => hdisj hjtake (by rw [he]; exact hi)
    exact descRel_of_ascRel_ne hasc hne

/-- Witness for the amended claim C5 at a concrete tied-scores input. -/
theorem c5_query_ranking_amended_witness :
    (1 ≤ 3 ∧ ([(1/2 : ℚ), 1/2]).length =
      ([DocText.growthDoc "AAPL" 2021 "strong" 11,
        DocText.growthDoc "AAPL" 2022 "modest" 3]).length) ∧
    List.Pairwise (descRel [(1/2 : ℚ), 1/2]) (topIndices [(1/2 : ℚ), 1/2] 3) :=
  ⟨⟨by omega, rfl⟩,
   (c5_query_ranking_amended [(1/2 : ℚ), 1/2]
      [DocText.growthDoc "AAPL" 2021 "strong" 11,
       DocText.growthDoc "AAPL" 2022 "modest" 3]
      [Meta.growthMeta 2021 11 "AAPL", Meta.growthMeta 2022 3 "AAPL"]
      3 (by omega) rfl).2.2.1⟩

/-- A positional read with default 0 from a list of nonnegative rationals is
nonnegative. -/
theorem getD_nonneg_of_forall {l : List ℚ} (h : ∀ x ∈ l, 0 ≤ x) (n : ℕ) :
    0 ≤ l.getD n 0 := by
  by_cases hn : n < l.length
  · rw [List.getD_eq_getElem l 0 hn]
    exact h _ (List.getElem_mem hn)
  · rw [List.getD_eq_default l 0 (by omega)]

/-- Claim C6, counterexample.  The claim bounds the prediction of the
latest-versus-previous branches to [1.0, 12.0].  The latest-below-previous
branch computes `max(latest*0.98, 2.0)`, unbounded above: absolute growth
values [10, 60, 50] yield the prediction 49.  The latest-above-previous
branch computes `min(latest*1.02, 12.0)` with no lower cap: absolute growth
values [0.9, 0.1, 0.5] yield the prediction 0.51. -/
theorem c6_prediction_bounds_counterexample :
    getPredictiveInsights ⟨some ⟨[2020, 2021, 2022],
        [some 10, some 60, some 50]⟩, none⟩ =
      [Insight.revenuePrediction 49 "medium" 3] ∧
    ¬ ((1 : ℚ) ≤ 49 ∧ (49 : ℚ) ≤ 12) ∧
    getPredictiveInsights ⟨some ⟨[2020, 2021, 2022],
        [some (0.9 : ℚ), some 0.1, some 0.5]⟩, none⟩ =
      [Insight.revenuePrediction (51/100) "medium" 3] ∧
    ¬ ((1 : ℚ) ≤ 51/100 ∧ (51/100 : ℚ) ≤ 12) := by
  refine ⟨?_, by norm_num, ?_, by norm_num⟩ <;>
    · simp [getPredictiveInsights, lastN, listMean, abs_of_nonneg]
      norm_num [abs_of_nonneg]

/-- Claim C6 as amended: in the revenue-growth prediction of
`get_predictive_insights`, when the last three non-null absolute growth
values give at least two usable entries, the latest-above-previous branch
produces a prediction in the half-open interval (0, 12] and the
latest-not-above-previous branch produces a prediction of at least 2, with no
upper bound; the produced insight carries that prediction with confidence
medium. -/
theorem c6_prediction_bounds_amended (rt : OptRatiosTimeline)
    (tl : OptTimeline) (recent : List ℚ) (latest previous p : ℚ)
    (hrg : rt.revenue_growth = some tl) (h3 : 3 ≤ tl.values.length)
    (hrec : recent = ((lastN 3 tl.values).filterMap id).map (fun x => |x|))
    (h2 : 2 ≤ recent.length)
    (hlatest : latest = recent.getD (recent.length - 1) 0)
    (hprev : previous = recent.getD (recent.length - 2) 0)
    (hp : p = if latest > previous then min (latest * (1.02 : ℚ)) 12
              else max (latest * (0.98 : ℚ)) 2)
    (hm : ∀ mtl, rt.profit_margin = some mtl →
      mtl.values.any (·.isNone) = false) :
    Insight.revenuePrediction p "medium" recent.length ∈
      getPredictiveInsights rt ∧
    (latest > previous → 0 < p ∧ p ≤ 12) ∧
    (¬ latest > previous → 2 ≤ p) := by
  have hprev_nonneg : 0 ≤ previous := by
    rw [hprev, hrec]
    refine getD_nonneg_of_forall ?_ _
    intro x hx
    rcases List.mem_map.mp hx with ⟨y, -, rfl⟩
    exact abs_nonneg y
  have hbounds : (latest > previous → 0 < p ∧ p ≤ 12) ∧
      (¬ latest > previous → 2 ≤ p) := by
    constructor
    · intro hgt
      rw [hp, if_pos hgt]
      have hlpos : 0 < latest := lt_of_le_of_lt hprev_nonneg hgt
      exact ⟨lt_min (by nlinarith) (by norm_num), min_le_right _ _⟩
    · intro hle
      rw [hp, if_neg hle]
      exact le_max_right _ _
  refine ⟨?_, hbounds⟩
  have hc1 : ¬ recent.isEmpty = true := by
    intro h
    rw [List.isEmpty_iff] at h
    rw [h] at h2
    simp at h2
  have hrevIns : (getPredictiveInsights rt) =
      (match rt.profit_margin with
       | none => [Insight.revenuePrediction p "medium" recent.length]
       | some mtl =>
         if 3 ≤ mtl.values.length then
           if mtl.values.any (·.isNone) then
             [.errorRecord "unsupported operand type for null margin value"]
           else
             let margins := mtl.values.filterMap id
             let varm := listVariance margins
             let desc := if varm < 4 then "highly stable"
                         else if varm < 25 then "moderately stable"
                         else "volatile"
             [Insight.revenuePrediction p "medium" recent.length] ++
               [.marginStability desc (listMean margins) varm]
         else [Insight.revenuePrediction p "medium" recent.length]) := by
    unfold getPredictiveInsights
    simp only [hrg, if_pos h3, ← hrec]
    rw [if_pos hc1, if_pos h2]
    simp only [← hlatest, ← hprev]
    have hres : (if latest > previous
          then (min (latest * (1.02 : ℚ)) 12, "medium")
          else (max (latest * (0.98 : ℚ)) 2, "medium")) = (p, "medium") := by
      rw [hp]
      split
      · rfl
      · rfl
    rw [hres]
  rw [hrevIns]
  cases hpm : rt.profit_margin with
  | none => simp
  | some mtl =>
    by_cases hlen : 3 ≤ mtl.values.length
    · simp [hlen, hm mtl hpm]
    · simp [hlen]

/-- Witness for the amended claim C6 at a concrete declining-growth input. -/
theorem c6_prediction_bounds_amended_witness :
    Insight.revenuePrediction 49 "medium" 3 ∈
      getPredictiveInsights ⟨some ⟨[2020, 2021, 2022],
        [some 10, some 60, some 50]⟩, none⟩ ∧
    (2 : ℚ) ≤ 49 := by
  have h := c6_prediction_bounds_amended
    ⟨some ⟨[2020, 2021, 2022], [some 10, some 60, some 50]⟩, none⟩
    ⟨[2020, 2021, 2022], [some 10, some 60, some 50]⟩
    [10, 60, 50] 50 60 49 rfl (by norm_num)
    (by simp [lastN]) (by norm_num) (by norm_num) (by norm_num)
    (by norm_num) (by intro mtl hmem; cases hmem)
  exact ⟨h.1, h.2.2 (by norm_num)⟩

/-- The standard path of `get_simple_ai_analysis` never touches the retrieval
index and never issues a RAG-prompt generation call. -/
theorem genCallTrue_not_mem_simple (env : Env) :
    Ev.genCall true ∉ (getSimpleAiAnalysis env).2 := by
  unfold getSimpleAiAnalysis
  cases env.initModelFails
  · cases env.genSimple <;> simp
  · simp

/-- Claim C3: with `force_standard` set, the orchestrator neither builds a RAG
store nor queries the retrieval index, and always returns method
`Standard AI` with zero context sources (llm.py lines 93-104, where the
force-standard branch returns before the try block that performs RAG). -/
theorem c3_force_standard_no_rag (env : Env) (ctx : ContextData) (q : String)
    (hfs : ctx.force_standard = true) :
    (getEnhancedAiAnalysis env ctx q).1.method = "Standard AI" ∧
    (getEnhancedAiAnalysis env ctx q).1.context_sources = 0 ∧
    Ev.buildStore ∉ (getEnhancedAiAnalysis env ctx q).2 ∧
    Ev.ragQuery ∉ (getEnhancedAiAnalysis env ctx q).2 := by
  unfold getEnhancedAiAnalysis getSimpleAiAnalysis
  rw [hfs]
  cases env.initModelFails
  · cases env.genSimple <;> simp
  · simp

/-- Witness for claim C3 at a concrete forced-standard request. -/
theorem c3_force_standard_no_rag_witness :
    (getEnhancedAiAnalysis
        ⟨none, none, GenOutcome.ok "fine", GenOutcome.ok "fine", fun _ _ => []⟩
        ⟨true, ⟨⟨⟨none, none⟩, ⟨none, none⟩⟩, none⟩, "AAPL"⟩
        "how is revenue").1.method = "Standard AI" ∧
    (getEnhancedAiAnalysis
        ⟨none, none, GenOutcome.ok "fine", GenOutcome.ok "fine", fun _ _ => []⟩
        ⟨true, ⟨⟨⟨none, none⟩, ⟨none, none⟩⟩, none⟩, "AAPL"⟩
        "how is revenue").1.context_sources = 0 ∧
    Ev.buildStore ∉ (getEnhancedAiAnalysis
        ⟨none, none, GenOutcome.ok "fine", GenOutcome.ok "fine", fun _ _ => []⟩
        ⟨true, ⟨⟨⟨none, none⟩, ⟨none, none⟩⟩, none⟩, "AAPL"⟩
        "how is revenue").2 ∧
    Ev.ragQuery ∉ (getEnhancedAiAnalysis
        ⟨none, none, GenOutcome.ok "fine", GenOutcome.ok "fine", fun _ _ => []⟩
        ⟨true, ⟨⟨⟨none, none⟩, ⟨none, none⟩⟩, none⟩, "AAPL"⟩
        "how is revenue").2 :=
  c3_force_standard_no_rag
    ⟨none, none, GenOutcome.ok "fine", GenOutcome.ok "fine", fun _ _ => []⟩
    ⟨true, ⟨⟨⟨none, none⟩, ⟨none, none⟩⟩, none⟩, "AAPL"⟩
    "how is revenue" rfl

/-- Claim C4, counterexample.  The claim states that every exception during
index build is converted by the orchestrator into an Error-method result.  An
exception inside the vectorizer fit is caught in `create_simple_rag_store`
and surfaced as an error string (llm.py lines 481-484), after which the
orchestrator falls through to the standard path and returns method
`Standard AI`, not `Error`. -/
theorem c4_index_build_error_counterexample :
    (createSimpleRagStore
        ⟨none, some "boom", GenOutcome.ok "standard text", GenOutcome.ok "rag",
         fun _ _ => []⟩
        ⟨⟨⟨some ⟨[2020], [100]⟩, none⟩, ⟨none, none⟩⟩, none⟩
        "AAPL").error = some ("Vectorization failed: " ++ "boom") ∧
    (getEnhancedAiAnalysis
        ⟨none, some "boom", GenOutcome.ok "standard text", GenOutcome.ok "rag",
         fun _ _ => []⟩
        ⟨false, ⟨⟨⟨some ⟨[2020], [100]⟩, none⟩, ⟨none, none⟩⟩, none⟩, "AAPL"⟩
        "how is revenue").1.method = "Standard AI" ∧
    ("Standard AI" : String) ≠ "Error" := by
  refine ⟨rfl, rfl, by decide⟩

/-- Claim C4 as amended: the orchestrator is a total function into
AnalysisResult (exceptions are values in this embedding, so no exception ever
propagates); the method is always one of the three enum values; an Error
result carries zero context sources and a nonempty message; a raise from the
RAG-prompt model invocation, and a raise from model construction outside the
forced-standard path, each yield exactly the Error result with its message;
but an index-build failure falls back to the standard path and yields method
`Standard AI`, not `Error`. -/
theorem c4_error_boundary_amended (env : Env) (ctx : ContextData)
    (q : String) :
    ((getEnhancedAiAnalysis env ctx q).1.method = "RAG-Enhanced" ∨
     (getEnhancedAiAnalysis env ctx q).1.method = "Standard AI" ∨
     (getEnhancedAiAnalysis env ctx q).1.method = "Error") ∧
    ((getEnhancedAiAnalysis env ctx q).1.method = "Error" →
      (getEnhancedAiAnalysis env ctx q).1.context_sources = 0 ∧
      (getEnhancedAiAnalysis env ctx q).1.analysis ≠ "") ∧
    (∀ m, env.genRag = GenOutcome.raises m →
      Ev.genCall true ∈ (getEnhancedAiAnalysis env ctx q).2 →
      (getEnhancedAiAnalysis env ctx q).1 =
        ⟨"Enhanced analysis error: " ++ m ++ ". Please try again.",
         "Error", 0⟩) ∧
    (∀ m, ctx.force_standard = false → env.initModelFails = some m →
      (getEnhancedAiAnalysis env ctx q).1 =
        ⟨"Enhanced analysis error: " ++ m ++ ". Please try again.",
         "Error", 0⟩) ∧
    (ctx.force_standard = false → env.initModelFails = none →
      (createSimpleRagStore env ctx.company_info ctx.ticker).error ≠ none →
      (getEnhancedAiAnalysis env ctx q).1.method = "Standard AI" ∧
      (getEnhancedAiAnalysis env ctx q).1.context_sources = 0) := by
  have hmsg : ∀ m : String,
      ("Enhanced analysis error: " ++ m ++ ". Please try again.") ≠ "" := by
    intro m h
    have h2 := congrArg String.length h
    simp [String.length_append] at h2
    exact absurd h2.2 (by decide)
  by_cases hfs : ctx.force_standard = true
  · have hres : getEnhancedAiAnalysis env ctx q =
        (⟨(getSimpleAiAnalysis env).1, "Standard AI", 0⟩,
         (getSimpleAiAnalysis env).2) := by
      unfold getEnhancedAiAnalysis
      rw [if_pos hfs]
    rw [hres]
    refine ⟨Or.inr (Or.inl rfl), by simp, ?_, ?_, ?_⟩
    · intro m _ htr
      exact absurd htr (genCallTrue_not_mem_simple env)
    · intro m hf
      rw [hfs] at hf
      cases hf
    · intro hf
      rw [hfs] at hf
      cases hf
  · cases him : env.initModelFails with
    | some m0 =>
      have hres : getEnhancedAiAnalysis env ctx q =
          (⟨"Enhanced analysis error: " ++ m0 ++ ". Please try again.",
            "Error", 0⟩, []) := by
        unfold getEnhancedAiAnalysis
        rw [if_neg hfs, him]
      rw [hres]
      refine ⟨Or.inr (Or.inr rfl), fun _ => ⟨rfl, hmsg m0⟩, ?_, ?_, ?_⟩
      · intro m _ htr
        simp at htr
      · intro m _ hm
        cases hm
        rfl
      · intro _ hm
        cases hm
    | none =>
      by_cases hh : (ctx.company_info.multi_year_data.financial_data.revenue.isSome ||
          ctx.company_info.multi_year_data.financial_data.net_income.isSome) = true
      · by_cases hst : ((createSimpleRagStore env ctx.company_info ctx.ticker).error.isNone &&
            !(createSimpleRagStore env ctx.company_info ctx.ticker).documents.isEmpty) = true
        · by_cases hrq : (!(querySimpleRag
              (env.simsOf (createSimpleRagStore env ctx.company_info ctx.ticker).documents q)
              (createSimpleRagStore env ctx.company_info ctx.ticker).documents
              (createSimpleRagStore env ctx.company_info ctx.ticker).metadata
              3).documents.isEmpty) = true
          · cases hgen : env.genRag with
            | ok t =>
              have hres : getEnhancedAiAnalysis env ctx q =
                  (⟨t, "RAG-Enhanced",
                    (querySimpleRag
                      (env.simsOf (createSimpleRagStore env ctx.company_info ctx.ticker).documents q)
                      (createSimpleRagStore env ctx.company_info ctx.ticker).documents
                      (createSimpleRagStore env ctx.company_info ctx.ticker).metadata
                      3).documents.length⟩,
                   [Ev.buildStore, Ev.ragQuery, Ev.genCall true]) := by
                unfold getEnhancedAiAnalysis
                rw [if_neg hfs, him]
                simp [hh, hst, hrq, hgen]
              rw [hres]
              refine ⟨Or.inl rfl, by simp, ?_, ?_, ?_⟩
              · intro m hgen2 _
                cases hgen2
              · intro m hf hm
                cases hm
              · intro _ _ herr
                have := (Bool.and_eq_true _ _).mp hst
                rw [Option.isNone_iff_eq_none] at this
                exact absurd this.1 herr
            | empty =>
              have hres : getEnhancedAiAnalysis env ctx q =
                  (⟨(getSimpleAiAnalysis env).1, "Standard AI", 0⟩,
                   [Ev.buildStore, Ev.ragQuery, Ev.genCall true] ++
                     (getSimpleAiAnalysis env).2) := by
                unfold getEnhancedAiAnalysis
                rw [if_neg hfs, him]
                simp [hh, hst, hrq, hgen]
              rw [hres]
              refine ⟨Or.inr (Or.inl rfl), by simp, ?_, ?_, ?_⟩
              · intro m hgen2 _
                cases hgen2
              · intro m hf hm
                cases hm
              · intro _ _ herr
                have := (Bool.and_eq_true _ _).mp hst
                rw [Option.isNone_iff_eq_none] at this
                exact absurd this.1 herr
            | raises m0 =>
              have hres : getEnhancedAiAnalysis env ctx q =
                  (⟨"Enhanced analysis error: " ++ m0 ++ ". Please try again.",
                    "Error", 0⟩,
                   [Ev.buildStore, Ev.ragQuery, Ev.genCall true]) := by
                unfold getEnhancedAiAnalysis
                rw [if_neg hfs, him]
                simp [hh, hst, hrq, hgen]
              rw [hres]
              refine ⟨Or.inr (Or.inr rfl), fun _ => ⟨rfl, hmsg m0⟩, ?_, ?_, ?_⟩
              · intro m hgen2 _
                cases hgen2
                rfl
              · intro m hf hm
                cases hm
              · intro _ _ herr
                have := (Bool.and_eq_true _ _).mp hst
                rw [Option.isNone_iff_eq_none] at this
                exact absurd this.1 herr
          · have hres : getEnhancedAiAnalysis env ctx q =
                (⟨(getSimpleAiAnalysis env).1, "Standard AI", 0⟩,
                 [Ev.buildStore, Ev.ragQuery] ++ (getSimpleAiAnalysis env).2) := by
              unfold getEnhancedAiAnalysis
              rw [if_neg hfs, him]
              simp [hh, hst, hrq]
            rw [hres]
            refine ⟨Or.inr (Or.inl rfl), by simp, ?_, ?_, ?_⟩
            · intro m _ htr
              simp at htr
              exact absurd htr (genCallTrue_not_mem_simple env)
            · intro m hf hm
              cases hm
            · intro _ _ _
              exact ⟨rfl, rfl⟩
        · have hres : getEnhancedAiAnalysis env ctx q =
              (⟨(getSimpleAiAnalysis env).1, "Standard AI", 0⟩,
               [Ev.buildStore] ++ (getSimpleAiAnalysis env).2) := by
            unfold getEnhancedAiAnalysis
            rw [if_neg hfs, him]
            simp [hh, hst]
          rw [hres]
          refine ⟨Or.inr (Or.inl rfl), by simp, ?_, ?_, ?_⟩
          · intro m _ htr
            simp at htr
            exact absurd htr (genCallTrue_not_mem_simple env)
          · intro m hf hm
            cases hm
          · intro _ _ _
            exact ⟨rfl, rfl⟩
      · have hres : getEnhancedAiAnalysis env ctx q =
            (⟨(getSimpleAiAnalysis env).1, "Standard AI", 0⟩,
             (getSimpleAiAnalysis env).2) := by
          unfold getEnhancedAiAnalysis
          rw [if_neg hfs, him]
          simp [hh]
        rw [hres]
        refine ⟨Or.inr (Or.inl rfl), by simp, ?_, ?_, ?_⟩
        · intro m _ htr
          exact absurd htr (genCallTrue_not_mem_simple env)
        · intro m hf hm
          cases hm
        · intro _ _ _
          exact ⟨rfl, rfl⟩

/-- Witness for the amended claim C4 at a concrete failing model
construction. -/
theorem c4_error_boundary_amended_witness :
    (getEnhancedAiAnalysis
        ⟨some "service down", none, GenOutcome.ok "x", GenOutcome.ok "y",
         fun _ _ => []⟩
        ⟨false, ⟨⟨⟨none, none⟩, ⟨none, none⟩⟩, none⟩, "AAPL"⟩
        "how is revenue").1 =
      ⟨"Enhanced analysis error: " ++ "service down" ++ ". Please try again.",
       "Error", 0⟩ :=
  (c4_error_boundary_amended
    ⟨some "service down", none, GenOutcome.ok "x", GenOutcome.ok "y",
     fun _ _ => []⟩
    ⟨false, ⟨⟨⟨none, none⟩, ⟨none, none⟩⟩, none⟩, "AAPL"⟩
    "how is revenue").2.2.2.1 "service down" rfl rfl

/-- Claim C9, counterexample.  The claim states that on any internal failure
the estimator resolves to an empty insight sequence, never an error-shaped
value.  A null profit-margin value reaching the numpy standard deviation
raises, and the handler of `get_predictive_insights` returns the
single-element list `[{error: ...}]` (llm.py line 667), which is error-shaped
and not empty. -/
theorem c9_error_record_counterexample :
    getPredictiveInsights ⟨none, some ⟨[2020, 2021, 2022],
        [some 1, none, some 2]⟩⟩ =
      [Insight.errorRecord "unsupported operand type for null margin value"] ∧
    (Insight.errorRecord
        "unsupported operand type for null margin value").isErrorRecord =
      true ∧
    ([Insight.errorRecord "unsupported operand type for null margin value"] :
        List Insight) ≠ [] := by
  refine ⟨rfl, rfl, by simp⟩

/-- Claim C9 as amended: for every input whose profit-margin values are free
of nulls whenever the margin branch runs, `get_predictive_insights` never
raises (it is a total function in this embedding) and returns at most two
records, none of them error-shaped; and with fewer than 3 periods of both
revenue growth and profit margin the result is empty.  On an internal
failure, however, the handler returns a single-element error record, not an
empty sequence. -/
theorem c9_insights_shape_amended (rt : OptRatiosTimeline)
    (hm : ∀ mtl, rt.profit_margin = some mtl →
      mtl.values.any (·.isNone) = false) :
    (getPredictiveInsights rt).length ≤ 2 ∧
    (∀ ins ∈ getPredictiveInsights rt, ins.isErrorRecord = false) ∧
    ((∀ tl, rt.revenue_growth = some tl → tl.values.length < 3) →
     (∀ tl, rt.profit_margin = some tl → tl.values.length < 3) →
     getPredictiveInsights rt = []) := by
  cases hrg : rt.revenue_growth with
  | none =>
    cases hpm : rt.profit_margin with
    | none => simp [getPredictiveInsights, hrg, hpm]
    | some mtl =>
      by_cases hm3 : 3 ≤ mtl.values.length
      · have hnull := hm mtl hpm
        refine ⟨?_, ?_, ?_⟩
        · simp [getPredictiveInsights, hrg, hpm, hm3, hnull]
        · intro ins hins
          simp [getPredictiveInsights, hrg, hpm, hm3, hnull] at hins
          subst hins
          rfl
        · intro _ h2
          have := h2 mtl rfl
          omega
      · refine ⟨?_, ?_, ?_⟩
        · simp [getPredictiveInsights, hrg, hpm, hm3]
        · intro ins hins
          simp [getPredictiveInsights, hrg, hpm, hm3] at hins
        · intro _ _
          simp [getPredictiveInsights, hrg, hpm, hm3]
  | some tl =>
    by_cases h3 : 3 ≤ tl.values.length
    · cases hpm : rt.profit_margin with
      | none =>
        refine ⟨?_, ?_, ?_⟩
        · simp [getPredictiveInsights, hrg, hpm, h3]
        · intro ins hins
          simp [getPredictiveInsights, hrg, hpm, h3] at hins
          subst hins
          rfl
        · intro h1 _
          have := h1 tl rfl
          omega
      | some mtl =>
        by_cases hm3 : 3 ≤ mtl.values.length
        · have hnull := hm mtl hpm
          refine ⟨?_, ?_, ?_⟩
          · simp [getPredictiveInsights, hrg, hpm, h3, hm3, hnull]
          · intro ins hins
            simp [getPredictiveInsights, hrg, hpm, h3, hm3, hnull] at hins
            rcases hins with hins | hins <;> subst hins <;> rfl
          · intro h1 _
            have := h1 tl rfl
            omega
        · refine ⟨?_, ?_, ?_⟩
          · simp [getPredictiveInsights, hrg, hpm, h3, hm3]
          · intro ins hins
            simp [getPredictiveInsights, hrg, hpm, h3, hm3] at hins
            subst hins
            rfl
          · intro h1 _
            have := h1 tl rfl
            omega
    · cases hpm : rt.profit_margin with
      | none => simp [getPredictiveInsights, hrg, hpm, h3]
      | some mtl =>
        by_cases hm3 : 3 ≤ mtl.values.length
        · have hnull := hm mtl hpm
          refine ⟨?_, ?_, ?_⟩
          · simp [getPredictiveInsights, hrg, hpm, h3, hm3, hnull]
          · intro ins hins
            simp [getPredictiveInsights, hrg, hpm, h3, hm3, hnull] at hins
            subst hins
            rfl
          · intro _ h2
            have := h2 mtl rfl
            omega
        · refine ⟨?_, ?_, ?_⟩
          · simp [getPredictiveInsights, hrg, hpm, h3, hm3]
          · intro ins hins
            simp [getPredictiveInsights, hrg, hpm, h3, hm3] at hins
          · intro _ _
            simp [getPredictiveInsights, hrg, hpm, h3, hm3]

/-- Witness for the amended claim C9 at the empty ratios timeline. -/
theorem c9_insights_shape_amended_witness :
    getPredictiveInsights ⟨none, none⟩ = [] ∧
    (getPredictiveInsights ⟨none, none⟩).length ≤ 2 :=
  ⟨(c9_insights_shape_amended ⟨none, none⟩ (fun mtl h => by cases h)).2.2
      (fun tl h => by cases h) (fun tl h => by cases h),
   (c9_insights_shape_amended ⟨none, none⟩ (fun mtl h => by cases h)).1⟩

/-- Unfolding lemma: pure in the Except monad is ok. -/
theorem exceptPure_eq_ok {ε α : Type} (a : α) :
    (pure a : Except ε α) = Except.ok a := rfl

/-- Unfolding lemma: bind on ok applies the continuation. -/
theorem exceptBind_ok {ε α β : Type} (a : α) (f : α → Except ε β) :
    (Except.ok a : Except ε α) >>= f = f a := rfl

/-- Unfolding lemma: bind on error short-circuits. -/
theorem exceptBind_error {ε α β : Type} (e : ε) (f : α → Except ε β) :
    (Except.error e : Except ε α) >>= f = Except.error e := rfl

/-- Rule 1 pairs each revenue document with a revenue metadata record of the
same year and value. -/
theorem revenueRule_ruleMatch (t : String) :
    ∀ (prev : Option ℚ) (pairs : List (ℕ × ℚ)) (dm : List DocText × List Meta),
      revenueRule t prev pairs = .ok dm →
      List.Forall₂ (fun d m => ruleMatch d m = true) dm.1 dm.2 := by
  intro prev pairs
  induction pairs generalizing prev with
  | nil =>
    intro dm h
    cases h
    exact List.Forall₂.nil
  | cons hd rest ih =>
    rcases hd with ⟨d, v⟩
    intro dm h
    cases prev with
    | none =>
      simp only [revenueRule, Except.bind, pure, Except.pure] at h
      cases hrec : revenueRule t (some v) rest with
      | error e =>
        rw [hrec] at h
        cases h
      | ok tl2 =>
        rw [hrec] at h
        cases h
        exact List.Forall₂.cons (by simp [ruleMatch]) (ih (some v) tl2 hrec)
    | some p =>
      by_cases hp : p = 0
      · simp only [revenueRule, hp, if_pos, Except.bind] at h
        cases h
      · simp only [revenueRule, if_neg hp, Except.bind, pure, Except.pure] at h
        cases hrec : revenueRule t (some v) rest with
        | error e =>
          rw [hrec] at h
          cases h
        | ok tl2 =>
          rw [hrec] at h
          cases h
          exact List.Forall₂.cons (by simp [ruleMatch]) (ih (some v) tl2 hrec)

/-- Rule 2 pairs each net-income document with its metadata record. -/
theorem netIncomeRule_ruleMatch (t : String) :
    ∀ (prev : Option ℚ) (pairs : List (ℕ × ℚ)),
      List.Forall₂ (fun d m => ruleMatch d m = true)
        (netIncomeRule t prev pairs).1 (netIncomeRule t prev pairs).2 := by
  intro prev pairs
  induction pairs generalizing prev with
  | nil => exact List.Forall₂.nil
  | cons hd rest ih =>
    rcases hd with ⟨d, v⟩
    exact List.Forall₂.cons (by simp [ruleMatch]) (ih (some v))

/-- Rule 3 pairs each growth document with its metadata record. -/
theorem growthRule_ruleMatch (t : String) (pairs : List (ℕ × ℚ)) :
    List.Forall₂ (fun d m => ruleMatch d m = true)
      (growthRule t pairs).1 (growthRule t pairs).2 := by
  induction pairs with
  | nil => exact List.Forall₂.nil
  | cons hd rest ih => exact List.Forall₂.cons (by simp [ruleMatch]) ih

/-- Rule 4 pairs each margin document with its metadata record. -/
theorem marginRule_ruleMatch (t : String) (pairs : List (ℕ × ℚ)) :
    List.Forall₂ (fun d m => ruleMatch d m = true)
      (marginRule t pairs).1 (marginRule t pairs).2 := by
  induction pairs with
  | nil => exact List.Forall₂.nil
  | cons hd rest ih => exact List.Forall₂.cons (by simp [ruleMatch]) ih

/-- Rule 5 pairs its trend document, when produced, with its metadata. -/
theorem trendRule_ruleMatch (t : String) (fd : FinancialData)
    (dm : List DocText × List Meta) (h : trendRule t fd = .ok dm) :
    List.Forall₂ (fun d m => ruleMatch d m = true) dm.1 dm.2 := by
  revert h
  unfold trendRule
  cases fd.revenue with
  | none =>
    intro h
    cases h
    exact List.Forall₂.nil
  | some tl =>
    intro h
    by_cases h3 : 3 ≤ tl.values.length
    · simp only [if_pos h3] at h
      by_cases h0 : (lastN 3 tl.values).getD 0 0 = 0
      · simp only [if_pos h0] at h
        cases h
      · simp only [if_neg h0] at h
        by_cases h1 : (lastN 3 tl.values).getD 1 0 = 0
        · simp only [if_pos h1] at h
          cases h
        · simp only [if_neg h1] at h
          cases h
          exact List.Forall₂.cons (by simp [ruleMatch]) List.Forall₂.nil
    · simp only [if_neg h3] at h
      cases h
      exact List.Forall₂.nil

/-- Rule 6 pairs its predictive document, when produced, with its metadata. -/
theorem predictiveRule_ruleMatch (t : String) (rt : RatiosTimeline) :
    List.Forall₂ (fun d m => ruleMatch d m = true)
      (predictiveRule t rt).1 (predictiveRule t rt).2 := by
  unfold predictiveRule
  cases rt.revenue_growth with
  | none => exact List.Forall₂.nil
  | some tl =>
    by_cases h3 : 3 ≤ tl.values.length
    · simp only [if_pos h3]
      exact List.Forall₂.cons (by simp [ruleMatch]) List.Forall₂.nil
    · simp only [if_neg h3]
      exact List.Forall₂.nil

/-- Rule 7 pairs its comparison document, when produced, with its metadata. -/
theorem comparisonRule_ruleMatch (t : String) (cd : CompanyData) :
    List.Forall₂ (fun d m => ruleMatch d m = true)
      (comparisonRule t cd).1 (comparisonRule t cd).2 := by
  unfold comparisonRule
  cases cd.metric with
  | none => exact List.Forall₂.nil
  | some m =>
    by_cases hf : (cd.multi_year_data.financial_data.revenue.isSome ||
        cd.multi_year_data.financial_data.net_income.isSome) = true
    · simp only [if_pos hf]
      cases cd.multi_year_data.ratios_timeline.profit_margin with
      | none => exact List.Forall₂.nil
      | some mtl =>
        by_cases he : mtl.values.isEmpty = true
        · simp only [if_pos he]
          exact List.Forall₂.nil
        · simp only [if_neg he]
          exact List.Forall₂.cons (by simp [ruleMatch]) List.Forall₂.nil
    · simp only [if_neg hf]
      exact List.Forall₂.nil

/-- Rule 8 pairs its stability document, when produced, with its metadata. -/
theorem stabilityRule_ruleMatch (t : String) (fd : FinancialData) :
    List.Forall₂ (fun d m => ruleMatch d m = true)
      (stabilityRule t fd).1 (stabilityRule t fd).2 := by
  unfold stabilityRule
  cases fd.revenue with
  | none => exact List.Forall₂.nil
  | some tl =>
    by_cases h2 : 2 ≤ tl.values.length
    · simp only [if_pos h2]
      exact List.Forall₂.cons (by simp [ruleMatch]) List.Forall₂.nil
    · simp only [if_neg h2]
      exact List.Forall₂.nil

/-- Claim C10: whenever `prepare_financial_documents` returns, the documents
and metadata lists correspond entry by entry, each metadata record produced
by the same generation rule (and carrying the same year and value) as the
document at the same position, so indexing metadata by a document position is
always valid during retrieval.  In particular the two lists have equal
length. -/
theorem c10_documents_metadata_aligned (cd : CompanyData) (t : String)
    (docs : List DocText) (metas : List Meta)
    (h : prepareFinancialDocuments cd t = .ok (docs, metas)) :
    List.Forall₂ (fun d m => ruleMatch d m = true) docs metas := by
  have hr2 : List.Forall₂ (fun d m => ruleMatch d m = true)
      (match cd.multi_year_data.financial_data.net_income with
        | some tl => netIncomeRule t none (tl.dates.zip tl.values)
        | none => ([], [])).1
      (match cd.multi_year_data.financial_data.net_income with
        | some tl => netIncomeRule t none (tl.dates.zip tl.values)
        | none => ([], [])).2 := by
    cases hni : cd.multi_year_data.financial_data.net_income with
    | none => exact List.Forall₂.nil
    | some tl => exact netIncomeRule_ruleMatch t none _
  have hr3 : List.Forall₂ (fun d m => ruleMatch d m = true)
      (match cd.multi_year_data.ratios_timeline.revenue_growth with
        | some tl => growthRule t (tl.dates.zip tl.values)
        | none => ([], [])).1
      (match cd.multi_year_data.ratios_timeline.revenue_growth with
        | some tl => growthRule t (tl.dates.zip tl.values)
        | none => ([], [])).2 := by
    cases hrg : cd.multi_year_data.ratios_timeline.revenue_growth with
    | none => exact List.Forall₂.nil
    | some tl => exact growthRule_ruleMatch t _
  have hr4 : List.Forall₂ (fun d m => ruleMatch d m = true)
      (match cd.multi_year_data.ratios_timeline.profit_margin with
        | some tl => marginRule t (tl.dates.zip tl.values)
        | none => ([], [])).1
      (match cd.multi_year_data.ratios_timeline.profit_margin with
        | some tl => marginRule t (tl.dates.zip tl.values)
        | none => ([], [])).2 := by
    cases hpm : cd.multi_year_data.ratios_timeline.profit_margin with
    | none => exact List.Forall₂.nil
    | some tl => exact marginRule_ruleMatch t _
  unfold prepareFinancialDocuments at h
  simp only [exceptPure_eq_ok] at h
  cases hrev : cd.multi_year_data.financial_data.revenue with
  | none =>
    simp only [hrev] at h
    rw [exceptBind_ok] at h
    cases h5 : trendRule t cd.multi_year_data.financial_data with
    | error e5 =>
      rw [h5, exceptBind_error] at h
      cases h
    | ok r5 =>
      rw [h5, exceptBind_ok] at h
      cases h
      exact List.rel_append
        (List.rel_append
          (List.rel_append
            (List.rel_append
              (List.rel_append
                (List.rel_append
                  (List.rel_append List.Forall₂.nil hr2) hr3) hr4)
                (trendRule_ruleMatch t _ _ h5))
              (predictiveRule_ruleMatch t _))
            (comparisonRule_ruleMatch t cd))
          (stabilityRule_ruleMatch t _)
  | some tl =>
    simp only [hrev] at h
    cases h1 : revenueRule t none (tl.dates.zip tl.values) with
    | error e1 =>
      rw [h1, exceptBind_error] at h
      cases h
    | ok r1 =>
      rw [h1, exceptBind_ok] at h
      cases h5 : trendRule t cd.multi_year_data.financial_data with
      | error e5 =>
        rw [h5, exceptBind_error] at h
        cases h
      | ok r5 =>
        rw [h5, exceptBind_ok] at h
        cases h
        exact List.rel_append
          (List.rel_append
            (List.rel_append
              (List.rel_append
                (List.rel_append
                  (List.rel_append
                    (List.rel_append
                      (revenueRule_ruleMatch t none _ _ h1) hr2) hr3) hr4)
                  (trendRule_ruleMatch t _ _ h5))
                (predictiveRule_ruleMatch t _))
              (comparisonRule_ruleMatch t cd))
            (stabilityRule_ruleMatch t _)

/-- Witness for claim C10 at a one-period revenue snapshot. -/
theorem c10_documents_metadata_aligned_witness :
    prepareFinancialDocuments
        ⟨⟨⟨some ⟨[2020], [100]⟩, none⟩, ⟨none, none⟩⟩, none⟩ "TST" =
      Except.ok ([DocText.revenueDoc "TST" 2020 100 none],
                 [Meta.revenueMeta 2020 100 "TST"]) ∧
    List.Forall₂ (fun d m => ruleMatch d m = true)
      [DocText.revenueDoc "TST" 2020 100 none]
      [Meta.revenueMeta 2020 100 "TST"] :=
  ⟨rfl, c10_documents_metadata_aligned
     ⟨⟨⟨some ⟨[2020], [100]⟩, none⟩, ⟨none, none⟩⟩, none⟩ "TST" _ _ rfl⟩
